import Mathlib

/-!
Shallow embedding of `src/function_app.py`, the disaster-message scheduler:
a timer-triggered run that loads a watermark string from blob storage,
fetches today's disaster messages from an HTTP API, sorts them newest-first,
filters the ones with `SN` above the watermark, forwards them to Event Hubs,
notifies a Teams webhook per message, and persists a new watermark.
-/

namespace DisasterAlert

/-- A Python value appearing in the `SN` field of a feed record: the upstream
transmits sequence ids as JSON numbers or numeric strings. -/
inductive PyVal where
  | int (n : Int)
  | str (s : String)
deriving DecidableEq, Repr

/-- One feed record (a `msg` dictionary).  `sn` models `msg.get("SN")`
(`none` = key absent or JSON `null`), `crtDt` models `msg.get("CRT_DT")`,
and `payload` stands for the remaining display fields (`MSG_CN`,
`RCPTN_RGN_NM`, ...), which the pipeline passes through opaquely. -/
structure Msg where
  sn : Option PyVal
  crtDt : Option String
  payload : String
deriving DecidableEq, Repr

/-- Value of a list of decimal digit characters; `none` if the list is empty
or contains a non-digit. -/
def digitsVal (cs : List Char) : Option Nat :=
  if cs.isEmpty then none
  else
    cs.foldl
      (fun acc c =>
        match acc with
        | none => none
        | some n => if c.isDigit then some (n * 10 + (c.toNat - '0'.toNat)) else none)
      (some 0)

/-- Strip leading and trailing whitespace from a character list. -/
def stripChars (cs : List Char) : List Char :=
  ((cs.dropWhile Char.isWhitespace).reverse.dropWhile Char.isWhitespace).reverse

/-- Python `str.strip()` (used on the blob contents at line 107). -/
def pyStrip (s : String) : String := ⟨stripChars s.data⟩

/-- Python `int(s)` on a string: optional sign, decimal digits, surrounding
whitespace tolerated; `none` models a raised `ValueError`. -/
def pyInt (s : String) : Option Int :=
  match stripChars s.data with
  | [] => none
  | '-' :: rest => (digitsVal rest).map (fun n => -(n : Int))
  | '+' :: rest => (digitsVal rest).map (fun n => (n : Int))
  | cs => (digitsVal cs).map (fun n => (n : Int))

/-- `int(current_msg_id) if current_msg_id is not None else 0` (lines
184-185): an absent/None `SN` becomes the integer `0` without any parse
failure, a numeric `SN` is itself, a string `SN` is parsed (`none` =
`ValueError`). -/
def snToInt : Option PyVal → Option Int
  | none => some 0
  | some (.int n) => some n
  | some (.str s) => pyInt s

/-- `int(last_processed_msg_id) if last_processed_msg_id else 0` (lines
187-189): the empty string (absent watermark) is `0`, anything else is
parsed, `none` = `ValueError`. -/
def watermarkInt (s : String) : Option Int :=
  if s = "" then some 0 else pyInt s

/-- Python `str(...)` applied to a raw `SN` value (line 256). -/
def pyStr : PyVal → String
  | .int n => toString n
  | .str s => s

/-- The sort key `(x.get("CRT_DT", ""), x.get("SN", 0))` from line 144. -/
def keyOf (m : Msg) : String × PyVal := (m.crtDt.getD "", m.sn.getD (.int 0))

/-- Lexicographic strict comparison of character lists by code point:
Python's `<` on strings. -/
def charListLt : List Char → List Char → Bool
  | [], [] => false
  | [], _ :: _ => true
  | _ :: _, [] => false
  | a :: as, b :: bs =>
    if a.toNat < b.toNat then true
    else if b.toNat < a.toNat then false
    else charListLt as bs

/-- Python `<` on strings. -/
def strLt (s t : String) : Bool := charListLt s.data t.data

/-- Python `<` on `SN` key values: numeric between numbers, lexicographic
between strings.  Comparing a number with a string raises `TypeError` in
Python (which would abort the whole run via the generic handler); the model
totalises that case arbitrarily, and no theorem below depends on a
mixed-type candidate set. -/
def pyValLt : PyVal → PyVal → Bool
  | .int m, .int n => decide (m < n)
  | .str s, .str t => strLt s t
  | .int _, .str _ => true
  | .str _, .int _ => false

/-- Python `<` on the sort-key tuples: lexicographic pair comparison. -/
def keyLt (a b : Msg) : Bool :=
  strLt (keyOf a).1 (keyOf b).1 ||
    (decide ((keyOf a).1 = (keyOf b).1) && pyValLt (keyOf a).2 (keyOf b).2)

/-- "`a` may precede `b`" in the descending sort: the key of `a` is not
strictly below the key of `b`.  `sorted(..., reverse=True)` is exactly the
stable descending sort by this relation. -/
def pyMsgLe (a b : Msg) : Prop := keyLt a b = false

instance : DecidableRel pyMsgLe := fun a b => instDecidableEqBool (keyLt a b) false

/-- `sorted(messages_from_api, key=lambda x: (x.get("CRT_DT", ""),
x.get("SN", 0)), reverse=True)` (lines 142-146).  Python's `sorted` is a
stable sort, and all stable sorts with the same precedence relation agree on
every input, so stable insertion sort models it exactly. -/
def pySort (l : List Msg) : List Msg := List.insertionSort pyMsgLe l

/-- `int(current_most_recent_id) if current_most_recent_id else 0` (lines
200-202).  In the source an unparsable non-empty value here would raise an
uncaught `ValueError`, but the line is only reached after `watermarkInt`
succeeded on the same initial string, and afterwards the tracked id is
always `str(...)` of an integer, so the `getD` default never fires on a
reachable state. -/
def strIntOr0 (s : String) : Int := if s = "" then 0 else (pyInt s).getD 0

/-- The filtering loop (lines 179-206) over the sorted candidate list.
`last` is `last_processed_msg_id`, `cmr` is `current_most_recent_id`
(initially equal to `last`, line 175).  Each iteration parses the record's
`SN` and the watermark inside one `try`: if either raises, the record is
skipped (`continue`); a parsed id above the watermark is appended to
`new_messages_found` and may bump `cmr`; otherwise the loop `break`s. -/
def scanLoop (last : String) (cmr : String) : List Msg → List Msg × String
  | [] => ([], cmr)
  | m :: rest =>
    match snToInt m.sn, watermarkInt last with
    | some cur, some lastW =>
      if lastW < cur then
        let cmr2 := if strIntOr0 cmr < cur then toString cur else cmr
        let p := scanLoop last cmr2 rest
        (m :: p.fst, p.snd)
      else ([], cmr)
    | _, _ => scanLoop last cmr rest

/-- `new_messages_found` produced by one run from the raw candidate list:
sort newest-first, then run the filtering loop. -/
def newBatch (last : String) (msgs : List Msg) : List Msg :=
  (scanLoop last last (pySort msgs)).fst

/-- A record whose `SN` parses to a value strictly above `W`: one the loop
appends to `new_messages_found` (line 196-197). -/
def isNewB (W : Int) (m : Msg) : Bool :=
  match snToInt m.sn with
  | some v => decide (W < v)
  | none => false

/-- A record whose `SN` parses to a value not above `W`: the kind that
triggers the `break` at line 206. -/
def isOldB (W : Int) (m : Msg) : Bool :=
  match snToInt m.sn with
  | some v => decide (v ≤ W)
  | none => false

/-- Index of the first record that would trigger the `break` at line 206;
the list length if no record qualifies. -/
def firstOldIdx (W : Int) (l : List Msg) : Nat := l.findIdx (isOldB W)

/-- Outcome of the blob-storage load of the previous watermark (lines
84-123): the blob is absent, holds a string, or some storage call raised. -/
inductive BlobRead where
  | absent
  | value (s : String)
  | error
deriving DecidableEq, Repr

/-- Outcome of the feed fetch (lines 127-171).  `requestError` covers
network errors, timeouts and non-2xx statuses (`RequestException`),
`jsonError` a response body that is not JSON, `otherError` the generic
`except Exception` handler, and `ok body` a decoded response whose `"body"`
field is `some` list of records, or `none` when the key is absent or not a
list. -/
inductive FetchOutcome where
  | requestError
  | jsonError
  | otherError
  | ok (body : Option (List Msg))
deriving DecidableEq, Repr

/-- One kind of Teams webhook notification emitted during a run (the exact
message text is presentation-level; `alert` carries the record whose display
fields the text is built from). -/
inductive Notice where
  | errNoBlobConn
  | errBlobLoad
  | errNoApiKey
  | errRequest
  | errJson
  | errOther
  | warnNoBody
  | errEventHub
  | alert (m : Msg)
  | warnBadSaveId
  | errBlobSave
  | noNewMessages
deriving DecidableEq, Repr

/-- An externally observable effect of one run. -/
inductive Eff where
  | notify (n : Notice)
  | eventSend (batch : List Msg)
  | blobWrite (s : String)
deriving DecidableEq, Repr

/-- The behaviour of every external collaborator during one run: presence of
the two credentials, what the watermark blob read yields, what the feed
fetch yields, and whether the Event Hubs `event.set` and the blob upload
succeed or raise. -/
structure Env where
  blobConn : Option String
  blobRead : BlobRead
  apiKey : Option String
  fetch : FetchOutcome
  eventHubOk : Bool
  blobWriteOk : Bool
deriving DecidableEq, Repr

/-- Python truthiness of an optional environment string (`if not ...`):
falsy when absent or empty. -/
def pyTruthy : Option String → Bool
  | none => false
  | some s => !(s = "")

/-- `last_processed_msg_id` after the blob-load stage: the stripped blob
contents on a successful read (line 105-107), `""` when the blob is absent
(line 63), `""` again when the load raised (line 123). -/
def loadedId (env : Env) : String :=
  match env.blobRead with
  | .value s => pyStrip s
  | .absent => ""
  | .error => ""

/-- Notifications emitted by the blob-load stage: one failure webhook when
the load raised (line 120), none otherwise. -/
def loadNotices (env : Env) : List Eff :=
  match env.blobRead with
  | .error => [.notify .errBlobLoad]
  | _ => []

/-- The blob-save attempt for a non-empty batch (lines 250-271).
`saveId = new_messages_found[0].get("SN")` (line 215): `None` or the empty
string skips the upload with a warning webhook (lines 252-266); otherwise
`str(saveId)` is uploaded, a raised upload error producing a failure webhook
(lines 267-271).  Note Python's `!=` between an `int` and `""` is `True`, so
only a string `SN` can equal `""`. -/
def saveEffects (env : Env) (saveId : Option PyVal) : List Eff :=
  match saveId with
  | none => [.notify .warnBadSaveId]
  | some (.str s) =>
    if s = "" then [.notify .warnBadSaveId]
    else if env.blobWriteOk then [.blobWrite s] else [.notify .errBlobSave]
  | some (.int n) =>
    if env.blobWriteOk then [.blobWrite (pyStr (.int n))] else [.notify .errBlobSave]

/-- One run of `disaster_message_scheduler` as the list of its observable
effects, in order.  Missing connection string: webhook then `return` (lines
85-92).  Blob-load error: webhook, id reset to `""`, run continues (lines
116-123).  Missing API key: webhook then `return` (lines 128-131).  Fetch
exceptions: webhook then `return` (lines 156-171).  Missing `"body"` list:
warning webhook, candidate list stays empty, run continues (lines 139-154).
Then the sort + filter (lines 142-146, 179-206); a non-empty batch is sent
to Event Hubs (failure: webhook, run continues, lines 217-228), each record
gets an alert webhook (lines 230-248), and the blob save is attempted
(lines 250-271); an empty batch yields one "no new messages" webhook
(lines 273-275). -/
def run (env : Env) : List Eff :=
  if !pyTruthy env.blobConn then [.notify .errNoBlobConn]
  else
    loadNotices env ++
      if !pyTruthy env.apiKey then [.notify .errNoApiKey]
      else
        match env.fetch with
        | .requestError => [.notify .errRequest]
        | .jsonError => [.notify .errJson]
        | .otherError => [.notify .errOther]
        | .ok body =>
          let fetchNotices : List Eff :=
            match body with
            | none => [.notify .warnNoBody]
            | some _ => []
          let latest : List Msg :=
            match body with
            | none => []
            | some msgs => pySort msgs
          let last := loadedId env
          let batch := (scanLoop last last latest).fst
          fetchNotices ++
            match batch with
            | [] => [.notify .noNewMessages]
            | b0 :: _ =>
              (if env.eventHubOk then [Eff.eventSend batch]
               else [Eff.notify .errEventHub]) ++
                batch.map (fun m => Eff.notify (.alert m)) ++
                saveEffects env b0.sn

end DisasterAlert

namespace DisasterAlert

/-! ### Order facts about the sort comparator -/

lemma charToNat_inj {a b : Char} (h : a.toNat = b.toNat) : a = b :=
  Char.ext (UInt32.ext h)

lemma charListLt_irrefl (as : List Char) : charListLt as as = false := by
  induction as with
  | nil => rfl
  | cons a as2 ih => simp [charListLt, ih]

lemma charListLt_asymm (as : List Char) :
    ∀ bs, charListLt as bs = true → charListLt bs as = false := by
  induction as with
  | nil =>
    intro bs h
    cases bs with
    | nil => simp [charListLt] at h
    | cons b bs2 => simp [charListLt]
  | cons a as2 ih =>
    intro bs h
    cases bs with
    | nil => simp [charListLt] at h
    | cons b bs2 =>
      simp only [charListLt] at h ⊢
      by_cases h1 : a.toNat < b.toNat
      · have h2 : ¬ b.toNat < a.toNat := by omega
        simp [h1, h2]
      · by_cases h2 : b.toNat < a.toNat
        · simp [h1, h2] at h
        · simp only [h1, h2, if_false] at h ⊢
          exact ih bs2 h

lemma charListLt_conn (as : List Char) :
    ∀ bs, charListLt as bs = false → charListLt bs as = false → as = bs := by
  induction as with
  | nil =>
    intro bs h1 h2
    cases bs with
    | nil => rfl
    | cons b bs2 => simp [charListLt] at h1
  | cons a as2 ih =>
    intro bs h1 h2
    cases bs with
    | nil => simp [charListLt] at h2
    | cons b bs2 =>
      simp only [charListLt] at h1 h2
      by_cases hab : a.toNat < b.toNat
      · simp [hab] at h1
      · by_cases hba : b.toNat < a.toNat
        · simp [hba] at h2
        · have hc : a = b := charToNat_inj (by omega)
          simp only [hab, hba, if_false] at h1 h2
          rw [hc, ih bs2 h1 h2]

lemma charListLt_trans (as : List Char) :
    ∀ bs cs, charListLt as bs = true → charListLt bs cs = true →
      charListLt as cs = true := by
  induction as with
  | nil =>
    intro bs cs h1 h2
    cases cs with
    | nil =>
      cases bs with
      | nil => simp [charListLt] at h1
      | cons b bs2 => simp [charListLt] at h2
    | cons c cs2 => simp [charListLt]
  | cons a as2 ih =>
    intro bs cs h1 h2
    cases bs with
    | nil => simp [charListLt] at h1
    | cons b bs2 =>
      cases cs with
      | nil => simp [charListLt] at h2
      | cons c cs2 =>
        simp only [charListLt] at h1 h2 ⊢
        by_cases hab : a.toNat < b.toNat
        · by_cases hbc : b.toNat < c.toNat
          · have : a.toNat < c.toNat := by omega
            simp [this]
          · by_cases hcb : c.toNat < b.toNat
            · simp [hbc, hcb] at h2
            · have : a.toNat < c.toNat := by omega
              simp [this]
        · by_cases hba : b.toNat < a.toNat
          · simp [hab, hba] at h1
          · by_cases hbc : b.toNat < c.toNat
            · have : a.toNat < c.toNat := by omega
              simp [this]
            · by_cases hcb : c.toNat < b.toNat
              · simp [hbc, hcb] at h2
              · have hac : ¬ a.toNat < c.toNat := by omega
                have hca : ¬ c.toNat < a.toNat := by omega
                simp only [hab, hba, if_false] at h1
                simp only [hbc, hcb, if_false] at h2
                simp only [hac, hca, if_false]
                exact ih bs2 cs2 h1 h2

lemma strLt_irrefl (s : String) : strLt s s = false := charListLt_irrefl s.data

lemma strLt_asymm {s t : String} (h : strLt s t = true) : strLt t s = false :=
  charListLt_asymm s.data t.data h

lemma strLt_conn {s t : String} (h1 : strLt s t = false) (h2 : strLt t s = false) :
    s = t := by
  cases s with
  | mk ds =>
    cases t with
    | mk dt => exact congrArg String.mk (charListLt_conn ds dt h1 h2)

lemma strLt_trans {s t u : String} (h1 : strLt s t = true) (h2 : strLt t u = true) :
    strLt s u = true :=
  charListLt_trans s.data t.data u.data h1 h2

lemma pyValLt_asymm : ∀ {a b : PyVal}, pyValLt a b = true → pyValLt b a = false
  | .int m, .int n, h => by
    simp only [pyValLt, decide_eq_true_eq] at h
    simp only [pyValLt, decide_eq_false_iff_not]
    omega
  | .str s, .str t, h => strLt_asymm h
  | .int _, .str _, _ => rfl
  | .str _, .int _, h => by simp [pyValLt] at h

lemma pyValLt_conn : ∀ {a b : PyVal},
    pyValLt a b = false → pyValLt b a = false → a = b
  | .int m, .int n, h1, h2 => by
    simp only [pyValLt, decide_eq_false_iff_not] at h1 h2
    have : m = n := by omega
    rw [this]
  | .str s, .str t, h1, h2 => by rw [strLt_conn h1 h2]
  | .int _, .str _, h1, _ => by simp [pyValLt] at h1
  | .str _, .int _, _, h2 => by simp [pyValLt] at h2

lemma pyValLt_trans : ∀ {a b c : PyVal},
    pyValLt a b = true → pyValLt b c = true → pyValLt a c = true
  | .int _, .int _, .int _, h1, h2 => by
    simp only [pyValLt, decide_eq_true_eq] at h1 h2 ⊢
    omega
  | .str s, .str t, .str u, h1, h2 => strLt_trans h1 h2
  | .int _, _, .str _, _, _ => rfl
  | .int _, .str _, .int _, _, h2 => by simp [pyValLt] at h2
  | .str _, .int _, _, h1, _ => by simp [pyValLt] at h1
  | .str _, .str _, .int _, _, h2 => by simp [pyValLt] at h2

end DisasterAlert

namespace DisasterAlert

lemma keyLt_of_keyOf_eq {a b : Msg} (h : keyOf a = keyOf b) (c : Msg) :
    keyLt a c = keyLt b c := by
  unfold keyLt; rw [h]

lemma keyLt_asymm {a b : Msg} (h : keyLt a b = true) : keyLt b a = false := by
  unfold keyLt at h ⊢
  rcases Bool.or_eq_true_iff.mp h with hlt | hand
  · have h1 : strLt (keyOf b).1 (keyOf a).1 = false := strLt_asymm hlt
    have h2 : (keyOf b).1 ≠ (keyOf a).1 := by
      intro he
      rw [he] at hlt
      rw [strLt_irrefl] at hlt
      exact Bool.noConfusion hlt
    simp [h1, h2]
  · rcases Bool.and_eq_true_iff.mp hand with ⟨heq, hv⟩
    have heq2 : (keyOf a).1 = (keyOf b).1 := of_decide_eq_true heq
    have h1 : strLt (keyOf b).1 (keyOf a).1 = false := by
      rw [heq2, strLt_irrefl]
    simp [h1, pyValLt_asymm hv]

lemma keyLt_conn {a b : Msg} (h1 : keyLt a b = false) (h2 : keyLt b a = false) :
    keyOf a = keyOf b := by
  unfold keyLt at h1 h2
  rcases Bool.or_eq_false_iff.mp h1 with ⟨hs1, hr1⟩
  rcases Bool.or_eq_false_iff.mp h2 with ⟨hs2, hr2⟩
  have hstr : (keyOf a).1 = (keyOf b).1 := strLt_conn hs1 hs2
  rcases Bool.and_eq_false_iff.mp hr1 with hne | hv1
  · exact absurd (decide_eq_true hstr) (by rw [hne]; exact Bool.noConfusion)
  · rcases Bool.and_eq_false_iff.mp hr2 with hne | hv2
    · exact absurd (decide_eq_true hstr.symm) (by rw [hne]; exact Bool.noConfusion)
    · have hval : (keyOf a).2 = (keyOf b).2 := pyValLt_conn hv1 hv2
      exact Prod.ext hstr hval

lemma keyLt_trans {a b c : Msg} (h1 : keyLt a b = true) (h2 : keyLt b c = true) :
    keyLt a c = true := by
  unfold keyLt at h1 h2 ⊢
  rcases Bool.or_eq_true_iff.mp h1 with hlt1 | hand1
  · rcases Bool.or_eq_true_iff.mp h2 with hlt2 | hand2
    · exact Bool.or_eq_true_iff.mpr (Or.inl (strLt_trans hlt1 hlt2))
    · rcases Bool.and_eq_true_iff.mp hand2 with ⟨heq, _⟩
      have he : (keyOf b).1 = (keyOf c).1 := of_decide_eq_true heq
      exact Bool.or_eq_true_iff.mpr (Or.inl (he ▸ hlt1))
  · rcases Bool.and_eq_true_iff.mp hand1 with ⟨heq1, hv1⟩
    have he1 : (keyOf a).1 = (keyOf b).1 := of_decide_eq_true heq1
    rcases Bool.or_eq_true_iff.mp h2 with hlt2 | hand2
    · exact Bool.or_eq_true_iff.mpr (Or.inl (he1 ▸ hlt2))
    · rcases Bool.and_eq_true_iff.mp hand2 with ⟨heq2, hv2⟩
      have he2 : (keyOf b).1 = (keyOf c).1 := of_decide_eq_true heq2
      refine Bool.or_eq_true_iff.mpr (Or.inr (Bool.and_eq_true_iff.mpr ⟨?_, ?_⟩))
      · exact decide_eq_true (he1.trans he2)
      · exact pyValLt_trans hv1 hv2

instance : IsTotal Msg pyMsgLe :=
  ⟨fun a b => by
    unfold pyMsgLe
    cases hab : keyLt a b with
    | false => exact Or.inl rfl
    | true => exact Or.inr (keyLt_asymm hab)⟩

instance : IsTrans Msg pyMsgLe :=
  ⟨fun a b c hab hbc => by
    unfold pyMsgLe at hab hbc ⊢
    cases hac : keyLt a c with
    | false => rfl
    | true =>
      exfalso
      cases hba : keyLt b a with
      | true =>
        have hbcT := keyLt_trans hba hac
        rw [hbc] at hbcT
        exact Bool.noConfusion hbcT
      | false =>
        have hkey := keyLt_conn hab hba
        have hsame := keyLt_of_keyOf_eq hkey c
        rw [hac, hbc] at hsame
        exact Bool.noConfusion hsame⟩

end DisasterAlert

namespace DisasterAlert

/-! ### Unfolding lemmas for the filtering loop -/

lemma scanLoop_nil (last c : String) : scanLoop last c [] = ([], c) := rfl

lemma scanLoop_cons_skip (last c : String) (m : Msg) (rest : List Msg)
    (h : snToInt m.sn = none) :
    scanLoop last c (m :: rest) = scanLoop last c rest := by
  rw [scanLoop, h]

lemma scanLoop_cons_badW (last c : String) (m : Msg) (rest : List Msg)
    (h : watermarkInt last = none) :
    scanLoop last c (m :: rest) = scanLoop last c rest := by
  rw [scanLoop, h]
  cases snToInt m.sn <;> rfl

lemma scanLoop_cons_acc (last c : String) (m : Msg) (rest : List Msg)
    (v W : Int) (hsn : snToInt m.sn = some v) (hw : watermarkInt last = some W)
    (hlt : W < v) :
    scanLoop last c (m :: rest) =
      ((m :: (scanLoop last (if strIntOr0 c < v then toString v else c) rest).fst),
        (scanLoop last (if strIntOr0 c < v then toString v else c) rest).snd) := by
  rw [scanLoop, hsn, hw]
  simp only [if_pos hlt]

lemma scanLoop_cons_stop (last c : String) (m : Msg) (rest : List Msg)
    (v W : Int) (hsn : snToInt m.sn = some v) (hw : watermarkInt last = some W)
    (hge : ¬ W < v) :
    scanLoop last c (m :: rest) = ([], c) := by
  rw [scanLoop, hsn, hw]
  simp only [if_neg hge]

/-- Every record the loop keeps parsed to a sequence id strictly above the
watermark. -/
lemma scan_fst_mem {last : String} {W : Int} (hw : watermarkInt last = some W) :
    ∀ (l : List Msg) (c : String) (m : Msg), m ∈ (scanLoop last c l).fst →
      ∃ v, snToInt m.sn = some v ∧ W < v := by
  intro l
  induction l with
  | nil => intro c m hm; simp [scanLoop_nil] at hm
  | cons a rest ih =>
    intro c m hm
    rcases hsn : snToInt a.sn with _ | v
    · rw [scanLoop_cons_skip _ _ _ _ hsn] at hm
      exact ih c m hm
    · by_cases hlt : W < v
      · rw [scanLoop_cons_acc _ _ _ _ _ _ hsn hw hlt] at hm
        rcases List.mem_cons.mp hm with he | hm2
        · subst he
          exact ⟨v, hsn, hlt⟩
        · exact ih _ m hm2
      · rw [scanLoop_cons_stop _ _ _ _ _ _ hsn hw hlt] at hm
        simp at hm

/-- With an unparsable watermark string every iteration hits the
`ValueError` handler, so nothing is ever kept. -/
lemma scan_fst_badW {last : String} (hw : watermarkInt last = none) :
    ∀ (l : List Msg) (c : String), (scanLoop last c l).fst = [] := by
  intro l
  induction l with
  | nil => intro c; rfl
  | cons a rest ih =>
    intro c
    rw [scanLoop_cons_badW _ _ _ _ hw]
    exact ih c

/-- The kept records are a sublist of the scanned list. -/
lemma scan_fst_sublist (last : String) :
    ∀ (l : List Msg) (c : String), (scanLoop last c l).fst.Sublist l := by
  intro l
  induction l with
  | nil => intro c; simp [scanLoop_nil]
  | cons a rest ih =>
    intro c
    rcases hw : watermarkInt last with _ | W
    · rw [scanLoop_cons_badW _ _ _ _ hw]
      exact (ih c).trans (List.sublist_cons_self a rest)
    · rcases hsn : snToInt a.sn with _ | v
      · rw [scanLoop_cons_skip _ _ _ _ hsn]
        exact (ih c).trans (List.sublist_cons_self a rest)
      · by_cases hlt : W < v
        · rw [scanLoop_cons_acc _ _ _ _ _ _ hsn hw hlt]
          exact List.Sublist.cons₂ a (ih _)
        · rw [scanLoop_cons_stop _ _ _ _ _ _ hsn hw hlt]
          simp

/-- Structural description of the loop: it keeps exactly the parsable
records of the prefix that ends at the first record whose parsed id is not
above the watermark. -/
lemma scan_fst_eq {last : String} {W : Int} (hw : watermarkInt last = some W) :
    ∀ (l : List Msg) (c : String),
      (scanLoop last c l).fst =
        (l.take (firstOldIdx W l)).filter (fun m => (snToInt m.sn).isSome) := by
  intro l
  induction l with
  | nil => intro c; simp [scanLoop_nil, firstOldIdx]
  | cons a rest ih =>
    intro c
    rcases hsn : snToInt a.sn with _ | v
    · have hpred : isOldB W a = false := by simp [isOldB, hsn]
      have hidx : firstOldIdx W (a :: rest) = firstOldIdx W rest + 1 := by
        unfold firstOldIdx
        rw [List.findIdx_cons, hpred]
        rfl
      rw [scanLoop_cons_skip _ _ _ _ hsn, hidx, List.take_succ_cons,
        List.filter_cons]
      simp only [hsn, Option.isSome_none, if_false]
      exact ih c
    · by_cases hlt : W < v
      · have hpred : isOldB W a = false := by
          simp only [isOldB, hsn, decide_eq_false_iff_not]
          omega
        have hidx : firstOldIdx W (a :: rest) = firstOldIdx W rest + 1 := by
          unfold firstOldIdx
          rw [List.findIdx_cons, hpred]
          rfl
        rw [scanLoop_cons_acc _ _ _ _ _ _ hsn hw hlt, hidx, List.take_succ_cons,
          List.filter_cons]
        simp only [hsn, Option.isSome_some, if_true]
        rw [ih]
      · have hpred : isOldB W a = true := by
          simp only [isOldB, hsn, decide_eq_true_eq]
          omega
        have hidx : firstOldIdx W (a :: rest) = 0 := by
          unfold firstOldIdx
          rw [List.findIdx_cons, hpred]
          rfl
        rw [scanLoop_cons_stop _ _ _ _ _ _ hsn hw hlt, hidx]
        simp

/-- A prefix of records that all parse above the watermark passes through
the loop untouched. -/
lemma scan_append_accepted {last : String} {W : Int}
    (hw : watermarkInt last = some W) :
    ∀ (xs rest : List Msg) (c : String), (∀ x ∈ xs, isNewB W x = true) →
      ∃ c2, (scanLoop last c (xs ++ rest)).fst =
        xs ++ (scanLoop last c2 rest).fst := by
  intro xs
  induction xs with
  | nil => intro rest c _; exact ⟨c, rfl⟩
  | cons a xs2 ih =>
    intro rest c hall
    have ha := hall a (List.mem_cons_self a xs2)
    rcases hsn : snToInt a.sn with _ | v
    · rw [isNewB, hsn] at ha
      exact Bool.noConfusion ha
    · have hlt : W < v := by
        rw [isNewB, hsn] at ha
        exact of_decide_eq_true ha
      rw [List.cons_append, scanLoop_cons_acc _ _ _ _ _ _ hsn hw hlt]
      obtain ⟨c2, hc2⟩ := ih rest (if strIntOr0 c < v then toString v else c)
        (fun x hx => hall x (List.mem_cons_of_mem a hx))
      exact ⟨c2, by simp [hc2]⟩

/-- The kept records do not depend on the `current_most_recent_id`
accumulator, only on the watermark string. -/
lemma scan_fst_cmr_irrel (last : String) :
    ∀ (l : List Msg) (c c2 : String),
      (scanLoop last c l).fst = (scanLoop last c2 l).fst := by
  intro l
  rcases hw : watermarkInt last with _ | W
  · intro c c2
    rw [scan_fst_badW hw, scan_fst_badW hw]
  · intro c c2
    rw [scan_fst_eq hw, scan_fst_eq hw]

end DisasterAlert

namespace DisasterAlert

/-! ### Concrete records and environments used to instantiate theorems -/

def m105 : Msg := ⟨some (.str "105"), some "d4", "p105"⟩

def m103 : Msg := ⟨some (.str "103"), some "d3", "p103"⟩

def m100 : Msg := ⟨some (.str "100"), some "d2", "p100"⟩

def m98 : Msg := ⟨some (.str "98"), some "d1", "p98"⟩

def sc1 : List Msg := [m105, m103, m100, m98]

def mBadSn : Msg := ⟨some (.str "abc"), some "d9", "pbad"⟩

def mSn5 : Msg := ⟨some (.str "5"), some "d0", "p5"⟩

def mNoSn : Msg := ⟨none, some "d2x", "pnone"⟩

def mStr9 : Msg := ⟨some (.str "9"), some "dd", "p9"⟩

def mStr10 : Msg := ⟨some (.str "10"), some "dd", "p10"⟩

def mC2a : Msg := ⟨some (.str "5"), some "20240102", "pa"⟩

def mC2b : Msg := ⟨some (.str "10"), some "20240101", "pb"⟩

def envC2 : Env := ⟨some "conn", .absent, some "key", .ok (some [mC2a, mC2b]), true, true⟩

def envC4 : Env := ⟨some "conn", .absent, some "key", .ok none, true, true⟩

def envC8 : Env := ⟨some "conn", .absent, some "key", .ok (some [m105, m103]), false, true⟩

def envC10 : Env := ⟨some "conn", .value " 100 ", some "key", .ok (some [m105, m103]), true, false⟩

/-- Modelled from the claim wording, for comparison with the code's sort:
`a` is strictly newer than `b` when its `created_at` string is
lexicographically later, or the strings are equal and its parsed
`sequence_id` is numerically greater. -/
def specKeyGt (a b : Msg) : Prop :=
  strLt (b.crtDt.getD "") (a.crtDt.getD "") = true ∨
    (a.crtDt.getD "" = b.crtDt.getD "" ∧ (snToInt a.sn).getD 0 > (snToInt b.sn).getD 0)

instance : DecidableRel specKeyGt := fun a b =>
  inferInstanceAs (Decidable (strLt (b.crtDt.getD "") (a.crtDt.getD "") = true ∨
    (a.crtDt.getD "" = b.crtDt.getD "" ∧ (snToInt a.sn).getD 0 > (snToInt b.sn).getD 0)))

/-- "Sorted strictly newest-first by `(created_at, sequence_id)`" in the
claim's sense of numeric comparison on the sequence id. -/
def specNewestFirst (l : List Msg) : Prop := l.Pairwise specKeyGt

instance (l : List Msg) : Decidable (specNewestFirst l) :=
  inferInstanceAs (Decidable (l.Pairwise specKeyGt))

/-! ### Shape of a run -/

lemma loadNotices_shape (env : Env) :
    loadNotices env = [] ∨ loadNotices env = [Eff.notify .errBlobLoad] := by
  cases h : env.blobRead <;> simp [loadNotices, h]

/-- A run whose fetch succeeded with a non-empty batch: the Event Hubs
attempt, then one alert per record, then the blob-save attempt. -/
lemma run_shape (env : Env) (msgs : List Msg) (b0 : Msg) (bs : List Msg)
    (hc : pyTruthy env.blobConn = true) (hk : pyTruthy env.apiKey = true)
    (hf : env.fetch = .ok (some msgs))
    (hb : newBatch (loadedId env) msgs = b0 :: bs) :
    run env = loadNotices env ++
      ((if env.eventHubOk then [Eff.eventSend (b0 :: bs)]
        else [Eff.notify .errEventHub]) ++
        (b0 :: bs).map (fun m => Eff.notify (.alert m)) ++ saveEffects env b0.sn) := by
  have hb2 : (scanLoop (loadedId env) (loadedId env) (pySort msgs)).fst = b0 :: bs := hb
  simp only [run, hc, hk, hf, Bool.not_true, Bool.false_eq_true, if_false, hb2,
    List.nil_append]

end DisasterAlert

namespace DisasterAlert

lemma isNewB_not_old {W : Int} {m : Msg} (h : isNewB W m = true) :
    isOldB W m = false := by
  rcases hsn : snToInt m.sn with _ | v
  · rw [isNewB, hsn] at h
    exact Bool.noConfusion h
  · rw [isNewB, hsn] at h
    rw [isOldB, hsn]
    simp only [decide_eq_true_eq] at h
    simp only [decide_eq_false_iff_not]
    omega

lemma mem_take_of_get {α : Type} {l : List α} {k i : Nat} (hi : i < l.length)
    (hik : i < k) : l.get ⟨i, hi⟩ ∈ l.take k := by
  apply List.mem_iff_getElem.mpr
  refine ⟨i, ?_, ?_⟩
  · simp only [List.length_take]
    omega
  · exact List.getElem_take l

/-- C1: for every watermark `W` and candidate set, every record of the
produced batch has a parsed integer `sequence_id` strictly above `W`, and
every candidate that appears in the sorted order before the first
already-seen record and whose `sequence_id` parses above `W` is in the
batch (only unparsable ones may be dropped there). -/
theorem claim_C1 (msgs : List Msg) (last : String) (W : Int)
    (hw : watermarkInt last = some W) :
    (∀ m ∈ newBatch last msgs, ∃ v, snToInt m.sn = some v ∧ W < v) ∧
    (∀ i (hi : i < (pySort msgs).length), i < firstOldIdx W (pySort msgs) →
      ∀ v, snToInt ((pySort msgs).get ⟨i, hi⟩).sn = some v → W < v →
        (pySort msgs).get ⟨i, hi⟩ ∈ newBatch last msgs) := by
  constructor
  · intro m hm
    exact scan_fst_mem hw (pySort msgs) last m hm
  · intro i hi hlt v hv hgt
    rw [newBatch, scan_fst_eq hw]
    apply List.mem_filter.mpr
    refine ⟨mem_take_of_get hi hlt, ?_⟩
    rw [hv]
    rfl

/-- Witness for C1 at Scenario 1 of the spec (`W = 100`): the id-105 record
is in the batch. -/
theorem claim_C1_witness : m105 ∈ newBatch "100" sc1 := by
  have h := (claim_C1 sc1 "100" 100 (by decide)).2 0 (by decide) (by decide) 105
    (by decide) (by decide)
  exact h

/-- C5: on a pre-sorted candidate list whose first `k` elements parse above
`W` and whose element `k` parses not-above `W`, the loop stops at `k` and
keeps exactly positions `[0, k)`. -/
theorem claim_C5 (last : String) (W : Int) (S : List Msg) (k : Nat)
    (_hsorted : S.Pairwise pyMsgLe)
    (hw : watermarkInt last = some W)
    (hkl : k < S.length)
    (hbefore : ∀ i (hi : i < S.length), i < k → isNewB W (S.get ⟨i, hi⟩) = true)
    (hat : isOldB W (S.get ⟨k, hkl⟩) = true) :
    (scanLoop last last S).fst = S.take k := by
  have hidx : firstOldIdx W S = k := by
    unfold firstOldIdx
    refine (List.findIdx_eq hkl).mpr ⟨hat, ?_⟩
    intro j hj
    exact isNewB_not_old (hbefore j (by omega) hj)
  rw [scan_fst_eq hw, hidx]
  apply List.filter_eq_self.mpr
  intro a ha
  rcases List.mem_iff_getElem.mp ha with ⟨i, hlen, hget⟩
  have hik : i < k := by
    simp only [List.length_take] at hlen
    omega
  have hiS : i < S.length := by
    simp only [List.length_take] at hlen
    omega
  have hgi : (S.take k).get ⟨i, hlen⟩ = S.get ⟨i, hiS⟩ := List.getElem_take S
  have hnew := hbefore i hiS hik
  rw [← hget]
  unfold isNewB at hnew
  rcases hsn : snToInt (S.get ⟨i, hiS⟩).sn with _ | v
  · rw [hsn] at hnew
    exact Bool.noConfusion hnew
  · show (snToInt ((S.take k).get ⟨i, hlen⟩).sn).isSome = true
    rw [hgi, hsn]
    rfl

/-- Witness for C5 at Scenario 1: with `W = 100` and the pre-sorted set
`[105, 103, 100, 98]`, the loop stops at index 2 and the batch is the first
two elements. -/
theorem claim_C5_witness : (scanLoop "100" "100" sc1).fst = sc1.take 2 :=
  claim_C5 "100" 100 sc1 2 (by decide) (by decide) (by decide) (by decide)
    (by decide)

lemma scan_middle_skip (last : String) {m : Msg} (hsn : snToInt m.sn = none) :
    ∀ (xs : List Msg) (ys : List Msg) (c : String),
      (scanLoop last c (xs ++ m :: ys)).fst = (scanLoop last c (xs ++ ys)).fst := by
  intro xs
  induction xs with
  | nil =>
    intro ys c
    rw [List.nil_append, List.nil_append, scanLoop_cons_skip _ _ _ _ hsn]
  | cons a xs2 ih =>
    intro ys c
    rcases hw : watermarkInt last with _ | W
    · rw [List.cons_append, List.cons_append, scanLoop_cons_badW _ _ _ _ hw,
        scanLoop_cons_badW _ _ _ _ hw]
      exact ih ys c
    · rcases hsna : snToInt a.sn with _ | v
      · rw [List.cons_append, List.cons_append, scanLoop_cons_skip _ _ _ _ hsna,
          scanLoop_cons_skip _ _ _ _ hsna]
        exact ih ys c
      · by_cases hlt : W < v
        · rw [List.cons_append, List.cons_append,
            scanLoop_cons_acc _ _ _ _ _ _ hsna hw hlt,
            scanLoop_cons_acc _ _ _ _ _ _ hsna hw hlt]
          show a :: (scanLoop last _ (xs2 ++ m :: ys)).fst =
            a :: (scanLoop last _ (xs2 ++ ys)).fst
          rw [ih]
        · rw [List.cons_append, List.cons_append,
            scanLoop_cons_stop _ _ _ _ _ _ hsna hw hlt,
            scanLoop_cons_stop _ _ _ _ _ _ hsna hw hlt]

/-- C6: a record with an unparsable `sequence_id` is skipped exactly as if
it were not in the candidate list; in particular the scan continues and
later valid records still enter the batch. -/
theorem claim_C6 (last : String) (m : Msg) (s : String)
    (hm : m.sn = some (.str s)) (hbad : pyInt s = none) (xs ys : List Msg) :
    (scanLoop last last (xs ++ m :: ys)).fst =
      (scanLoop last last (xs ++ ys)).fst := by
  have hsn : snToInt m.sn = none := by
    rw [hm]
    exact hbad
  exact scan_middle_skip last hsn xs ys last

/-- Witness for C6 at Scenario 5 of the spec: an `"abc"` record above a
valid record is skipped and the valid record still enters. -/
theorem claim_C6_witness :
    mBadSn.sn = some (PyVal.str "abc") ∧
    (scanLoop "0" "0" [mBadSn, mSn5]).fst = (scanLoop "0" "0" [mSn5]).fst :=
  ⟨rfl, claim_C6 "0" mBadSn "abc" rfl (by decide) [] [mSn5]⟩

/-- C9: a record whose `SN` key is absent is parsed as the integer `0`, so
with a non-negative watermark it triggers the early `break` and every
later-sorted candidate is dropped, new or not. -/
theorem claim_C9 (last : String) (W : Int) (xs ys : List Msg) (m : Msg)
    (hw : watermarkInt last = some W) (hW : 0 ≤ W) (hm : m.sn = none)
    (hxs : ∀ x ∈ xs, isNewB W x = true) :
    snToInt m.sn = some 0 ∧ (scanLoop last last (xs ++ m :: ys)).fst = xs := by
  have hsn : snToInt m.sn = some 0 := by
    rw [hm]
    rfl
  refine ⟨hsn, ?_⟩
  obtain ⟨c2, hc2⟩ := scan_append_accepted hw xs (m :: ys) last hxs
  rw [hc2, scanLoop_cons_stop _ _ _ _ 0 W hsn hw (by omega)]
  simp

/-- Witness for C9: an id-less record below `105` drops the valid id-103
record that sorts after it. -/
theorem claim_C9_witness :
    (scanLoop "100" "100" [m105, mNoSn, m103]).fst = [m105] :=
  (claim_C9 "100" 100 [m105] [m103] mNoSn (by decide) (by decide) rfl
    (by decide)).2

end DisasterAlert

namespace DisasterAlert

/-- C2 is a code bug: with watermark absent and candidates
`[(20240102, SN 5), (20240101, SN 10)]` the whole batch is forwarded, yet
the persisted watermark is `"5"` — the raw `SN` of the batch head (the
newest record by `created_at`) — not the maximum forwarded id `10` that the
spec requires.  The running maximum the loop tracks in
`current_most_recent_id` is never used for the save. -/
theorem claim_C2_bug :
    newBatch "" [mC2a, mC2b] = [mC2a, mC2b] ∧
    snToInt mC2a.sn = some 5 ∧ snToInt mC2b.sn = some 10 ∧
    run envC2 = [Eff.eventSend [mC2a, mC2b], Eff.notify (.alert mC2a),
      Eff.notify (.alert mC2b), Eff.blobWrite "5"] ∧
    Eff.blobWrite "10" ∉ run envC2 := by decide

/-- Counterexample to C3 as stated: two string `SN`s under an equal
`created_at` are compared as strings, not numerically, so `"9"` sorts
before `"10"` and the result is not strictly newest-first in the claim's
numeric sense. -/
theorem claim_C3_cex :
    pySort [mStr9, mStr10] = [mStr9, mStr10] ∧
    ¬ specNewestFirst (pySort [mStr9, mStr10]) := by decide

/-- C3 amended: the engine sorts the candidate set descending by the pair
(`created_at` string, raw `SN` value) — the `SN` tie-break is Python value
comparison: numeric between numbers but lexicographic between strings — and
stably, so the output (and hence the batch, a sublist of it) is
non-strictly descending by that key and a permutation of the input. -/
theorem claim_C3_amended (msgs : List Msg) (last : String) :
    (pySort msgs).Perm msgs ∧ (pySort msgs).Pairwise pyMsgLe ∧
    (newBatch last msgs).Pairwise pyMsgLe := by
  refine ⟨List.perm_insertionSort pyMsgLe msgs, ?_, ?_⟩
  · exact List.sorted_insertionSort pyMsgLe msgs
  · exact List.Pairwise.sublist (scan_fst_sublist last (pySort msgs) last)
      (List.sorted_insertionSort pyMsgLe msgs)

/-- Counterexample to C7 as stated: with the unparsable stored watermark
`"abc"`, a candidate that parses to `5 > 0` is *not* treated as new — every
iteration raises `ValueError` while re-parsing the watermark and skips, so
the batch is empty instead of containing the record. -/
theorem claim_C7_cex :
    pyInt "abc" = none ∧ isNewB 0 mSn5 = true ∧
    newBatch "abc" [mSn5] = [] ∧ mSn5 ∉ newBatch "abc" [mSn5] := by decide

/-- C7 amended: an *absent* watermark (empty string) behaves exactly as the
watermark `"0"`; an *unparsable* stored watermark instead makes every
iteration skip, so the batch is always empty. -/
theorem claim_C7_amended :
    (∀ (S : List Msg) (c : String), (scanLoop "" c S).fst = (scanLoop "0" c S).fst) ∧
    (∀ (last : String), last ≠ "" → pyInt last = none →
      ∀ (S : List Msg) (c : String), (scanLoop last c S).fst = []) := by
  constructor
  · intro S c
    have h1 : watermarkInt "" = some 0 := rfl
    have h2 : watermarkInt "0" = some 0 := by decide
    rw [scan_fst_eq h1, scan_fst_eq h2]
  · intro last hne hbad S c
    have hw : watermarkInt last = none := by
      unfold watermarkInt
      rw [if_neg hne]
      exact hbad
    exact scan_fst_badW hw S c

/-- Witness for the amended C7: the unparsable watermark `"abc"` empties
the batch. -/
theorem claim_C7_witness : (scanLoop "abc" "abc" [mSn5]).fst = [] :=
  claim_C7_amended.2 "abc" (by decide) (by decide) [mSn5] "abc"

end DisasterAlert

namespace DisasterAlert

lemma loadNotices_only_notify (env : Env) {e : Eff} (h : e ∈ loadNotices env) :
    e = Eff.notify .errBlobLoad := by
  rcases loadNotices_shape env with h2 | h2 <;> rw [h2] at h
  · simp at h
  · simp at h
    exact h

/-- Counterexample to C4 as stated: with the `"body"` key missing the run
does *not* terminate at the warning notification — it continues and emits
the "no new messages" (empty-result success) notification. -/
theorem claim_C4_cex :
    run envC4 = [Eff.notify .warnNoBody, Eff.notify .noNewMessages] ∧
    (run envC4).getLast? ≠ some (Eff.notify .warnNoBody) := by decide

/-- C4 amended: the three exception paths of the fetch stage each terminate
the run immediately after their error notification, and a response without
the `"body"` list yields a warning notification followed by an
empty-candidate-set run ending in the "no new messages" notification; in
all four cases nothing is sent to Event Hubs and the watermark blob is
never written. -/
theorem claim_C4_amended (env : Env)
    (hc : pyTruthy env.blobConn = true) (hk : pyTruthy env.apiKey = true) :
    (env.fetch = .requestError →
      run env = loadNotices env ++ [Eff.notify .errRequest]) ∧
    (env.fetch = .jsonError →
      run env = loadNotices env ++ [Eff.notify .errJson]) ∧
    (env.fetch = .otherError →
      run env = loadNotices env ++ [Eff.notify .errOther]) ∧
    (env.fetch = .ok none →
      run env = loadNotices env ++
        [Eff.notify .warnNoBody, Eff.notify .noNewMessages]) ∧
    ((env.fetch = .requestError ∨ env.fetch = .jsonError ∨
        env.fetch = .otherError ∨ env.fetch = .ok none) →
      (∀ b, Eff.eventSend b ∉ run env) ∧ ∀ s2, Eff.blobWrite s2 ∉ run env) := by
  have h1 : env.fetch = .requestError →
      run env = loadNotices env ++ [Eff.notify .errRequest] := by
    intro hf
    simp only [run, hc, hk, hf, Bool.not_true, Bool.false_eq_true, if_false]
  have h2 : env.fetch = .jsonError →
      run env = loadNotices env ++ [Eff.notify .errJson] := by
    intro hf
    simp only [run, hc, hk, hf, Bool.not_true, Bool.false_eq_true, if_false]
  have h3 : env.fetch = .otherError →
      run env = loadNotices env ++ [Eff.notify .errOther] := by
    intro hf
    simp only [run, hc, hk, hf, Bool.not_true, Bool.false_eq_true, if_false]
  have h4 : env.fetch = .ok none →
      run env = loadNotices env ++
        [Eff.notify .warnNoBody, Eff.notify .noNewMessages] := by
    intro hf
    simp only [run, hc, hk, hf, Bool.not_true, Bool.false_eq_true, if_false]
    rfl
  refine ⟨h1, h2, h3, h4, ?_⟩
  intro hf
  have htail : ∃ tail, run env = loadNotices env ++ tail ∧
      ∀ e ∈ tail, ∃ n, e = Eff.notify n := by
    rcases hf with hf | hf | hf | hf
    · exact ⟨_, h1 hf, by intro e he; simp at he; exact ⟨_, he⟩⟩
    · exact ⟨_, h2 hf, by intro e he; simp at he; exact ⟨_, he⟩⟩
    · exact ⟨_, h3 hf, by intro e he; simp at he; exact ⟨_, he⟩⟩
    · refine ⟨_, h4 hf, ?_⟩
      intro e he
      rcases List.mem_cons.mp he with he2 | he2
      · exact ⟨_, he2⟩
      · simp at he2
        exact ⟨_, he2⟩
  obtain ⟨tail, he, hall⟩ := htail
  constructor
  · intro b hb
    rw [he] at hb
    rcases List.mem_append.mp hb with h | h
    · exact Eff.noConfusion (loadNotices_only_notify env h)
    · obtain ⟨n, hn⟩ := hall _ h
      exact Eff.noConfusion hn
  · intro s2 hb
    rw [he] at hb
    rcases List.mem_append.mp hb with h | h
    · exact Eff.noConfusion (loadNotices_only_notify env h)
    · obtain ⟨n, hn⟩ := hall _ h
      exact Eff.noConfusion hn

/-- Witness for the amended C4 at a concrete environment with the `"body"`
key missing. -/
theorem claim_C4_witness :
    run envC4 = loadNotices envC4 ++
      [Eff.notify .warnNoBody, Eff.notify .noNewMessages] :=
  (claim_C4_amended envC4 (by decide) (by decide)).2.2.2.1 rfl

end DisasterAlert

namespace DisasterAlert

/-- A batch head under a non-negative watermark has a raw `SN` that is
neither absent nor the empty string, and its parsed value is known. -/
lemma batch_head_sn {env : Env} {msgs : List Msg} {W : Int} {b0 : Msg}
    {bs : List Msg}
    (hw : watermarkInt (loadedId env) = some W) (hW : 0 ≤ W)
    (hb : newBatch (loadedId env) msgs = b0 :: bs) :
    b0.sn ≠ none ∧ b0.sn ≠ some (.str "") ∧ ∃ val, b0.sn = some val := by
  have hmem : b0 ∈ newBatch (loadedId env) msgs := by
    rw [hb]
    exact List.mem_cons_self b0 bs
  obtain ⟨u, hu, hWu⟩ := scan_fst_mem hw (pySort msgs) (loadedId env) b0 hmem
  rcases hsn : b0.sn with _ | val
  · rw [hsn] at hu
    have h0 : (some 0 : Option Int) = some u := hu
    have : u = 0 := by
      injection h0 with h0
      omega
    omega
  · refine ⟨by simp, ?_, val, rfl⟩
    intro he
    injection he with he
    rw [he] at hsn
    rw [hsn] at hu
    rw [show snToInt (some (PyVal.str "")) = none from by decide] at hu
    exact Option.noConfusion hu

lemma saveEffects_valid (env : Env) {b0 : Msg} {val : PyVal}
    (hsn : b0.sn = some val) (hne : b0.sn ≠ some (.str "")) :
    saveEffects env b0.sn =
      (if env.blobWriteOk then [Eff.blobWrite (pyStr val)]
       else [Eff.notify .errBlobSave]) := by
  rcases val with n | s
  · rw [hsn]
    rfl
  · have hs : s ≠ "" := by
      intro he
      rw [he] at hsn
      exact hne hsn
    rw [hsn]
    simp [saveEffects, hs, pyStr]

/-- C8: with a non-empty batch and a failing Event Hubs append, the failure
is notified, every record still gets its alert notification, and the
watermark save is still attempted (a write when the upload works, a save
failure notification when it raises). -/
theorem claim_C8 (env : Env) (msgs : List Msg) (W : Int)
    (hc : pyTruthy env.blobConn = true) (hk : pyTruthy env.apiKey = true)
    (hf : env.fetch = .ok (some msgs))
    (hw : watermarkInt (loadedId env) = some W) (hW : 0 ≤ W)
    (hne : newBatch (loadedId env) msgs ≠ [])
    (hhub : env.eventHubOk = false) :
    ∃ b0 bs, newBatch (loadedId env) msgs = b0 :: bs ∧
      ∃ v, b0.sn = some v ∧
        run env = loadNotices env ++ ([Eff.notify .errEventHub] ++
          (b0 :: bs).map (fun m => Eff.notify (.alert m)) ++
          saveEffects env b0.sn) ∧
        saveEffects env b0.sn =
          (if env.blobWriteOk then [Eff.blobWrite (pyStr v)]
           else [Eff.notify .errBlobSave]) := by
  rcases hb : newBatch (loadedId env) msgs with _ | ⟨b0, bs⟩
  · exact absurd hb hne
  · obtain ⟨hn0, hn1, val, hval⟩ := batch_head_sn hw hW hb
    refine ⟨b0, bs, rfl, val, hval, ?_, saveEffects_valid env hval hn1⟩
    have hshape := run_shape env msgs b0 bs hc hk hf hb
    rw [hhub] at hshape
    simp only [Bool.false_eq_true, if_false] at hshape
    exact hshape

/-- Witness for C8: a concrete run with two new records and a raising
`event.set` still alerts both records and writes the watermark blob. -/
theorem claim_C8_witness :
    ∃ b0 bs, newBatch (loadedId envC8) [m105, m103] = b0 :: bs ∧
      ∃ v, b0.sn = some v ∧
        run envC8 = loadNotices envC8 ++ ([Eff.notify .errEventHub] ++
          (b0 :: bs).map (fun m => Eff.notify (.alert m)) ++
          saveEffects envC8 b0.sn) ∧
        saveEffects envC8 b0.sn =
          (if envC8.blobWriteOk then [Eff.blobWrite (pyStr v)]
           else [Eff.notify .errBlobSave]) :=
  claim_C8 envC8 [m105, m103] 0 (by decide) (by decide) rfl (by decide)
    (by decide) (by decide) rfl

/-- C10: with a non-negative watermark, every batch member parsed above the
watermark, the batch head's raw `SN` is neither `None` nor `""`, so the
guard that would skip the blob save can never fire and the watermark write
is attempted on every non-empty-batch run. -/
theorem claim_C10 (env : Env) (msgs : List Msg) (W : Int)
    (hc : pyTruthy env.blobConn = true) (hk : pyTruthy env.apiKey = true)
    (hf : env.fetch = .ok (some msgs))
    (hw : watermarkInt (loadedId env) = some W) (hW : 0 ≤ W)
    (hne : newBatch (loadedId env) msgs ≠ []) :
    (∀ m ∈ newBatch (loadedId env) msgs, ∃ v, snToInt m.sn = some v ∧ W < v) ∧
    ((newBatch (loadedId env) msgs).head hne).sn ≠ none ∧
    ((newBatch (loadedId env) msgs).head hne).sn ≠ some (.str "") ∧
    ((∃ s2, Eff.blobWrite s2 ∈ run env) ∨ Eff.notify .errBlobSave ∈ run env) ∧
    Eff.notify .warnBadSaveId ∉ run env := by
  obtain ⟨b0, bs, hb⟩ : ∃ b0 bs, newBatch (loadedId env) msgs = b0 :: bs := by
    rcases hq : newBatch (loadedId env) msgs with _ | ⟨x, xs⟩
    · exact absurd hq hne
    · exact ⟨x, xs, rfl⟩
  obtain ⟨hn0, hn1, val, hval⟩ := batch_head_sn hw hW hb
  have hhead : (newBatch (loadedId env) msgs).head hne = b0 := by
    have hgen : ∀ (l : List Msg) (h : l ≠ []), l = b0 :: bs → l.head h = b0 := by
      intro l h hl
      subst hl
      rfl
    exact hgen _ hne hb
  have hshape := run_shape env msgs b0 bs hc hk hf hb
  have hsave := saveEffects_valid env hval hn1
  refine ⟨?_, ?_, ?_, ?_, ?_⟩
  · intro m hm
    exact scan_fst_mem hw (pySort msgs) (loadedId env) m hm
  · rw [hhead]
    exact hn0
  · rw [hhead]
    exact hn1
  · cases hbw : env.blobWriteOk with
    | true =>
      refine Or.inl ⟨pyStr val, ?_⟩
      rw [hshape, hsave, hbw]
      simp
    | false =>
      refine Or.inr ?_
      rw [hshape, hsave, hbw]
      simp
  · intro hmem
    rw [hshape, hsave] at hmem
    rcases List.mem_append.mp hmem with h | h
    · have hn := loadNotices_only_notify env h
      injection hn with hn
      exact Notice.noConfusion hn
    · rcases List.mem_append.mp h with h | h
      · rcases List.mem_append.mp h with h | h
        · cases hhub : env.eventHubOk <;> rw [hhub] at h <;> simp at h
        · simp at h
      · cases hbw : env.blobWriteOk <;> rw [hbw] at h <;> simp at h

/-- Witness for C10: a concrete run (stored watermark `" 100 "`, two new
records, raising blob upload) where the save is attempted and the
invalid-id guard does not fire. -/
theorem claim_C10_witness :
    ((∃ s2, Eff.blobWrite s2 ∈ run envC10) ∨
      Eff.notify .errBlobSave ∈ run envC10) ∧
    Eff.notify .warnBadSaveId ∉ run envC10 :=
  ⟨(claim_C10 envC10 [m105, m103] 100 (by decide) (by decide) rfl (by decide)
      (by decide) (by decide)).2.2.2.1,
    (claim_C10 envC10 [m105, m103] 100 (by decide) (by decide) rfl (by decide)
      (by decide) (by decide)).2.2.2.2⟩

end DisasterAlert
